import Mathlib

/-
  Verification development for src/old_data/migrate_old_data.py
  (class OldDataMigrator and the surrounding driver).

  The Python program is shallowly embedded below.  Pure helpers become Lean
  functions; the database cursor results, the HTTP session and the clock are
  passed in explicitly (rows as lists, the API as a function from payload to
  the response the session would yield, today's date as a parameter).
-/

set_option maxHeartbeats 1000000

namespace Migrate

/-- Calendar date, as produced by Python datetime.date(year, month, day). -/
structure Date where
  year : Nat
  month : Nat
  day : Nat
  deriving DecidableEq

/-- Python datetime.datetime value (microseconds omitted: the program never
builds one with a nonzero microsecond field). -/
structure PyDateTime where
  date : Date
  hour : Nat := 0
  minute : Nat := 0
  second : Nat := 0
  deriving DecidableEq

/-- An untyped scalar cell of a MySQL row as the dictionary cursor yields it:
NULL, a string, an integer, or a datetime. -/
inductive Value where
  | vnull
  | vstr (s : String)
  | vint (n : Int)
  | vdatetime (dt : PyDateTime)
  deriving DecidableEq

/-- A row dictionary: column name to cell value, in column order. -/
abbrev Row := List (String × Value)

/-- Python dict access d.get(key): the value of the first (only) binding. -/
def rowGet : Row → String → Option Value
  | [], _ => none
  | (k, v) :: rest, key => if k = key then some v else rowGet rest key

/-- Python dict assignment d[key] = value: replace in place when the key is
present, append otherwise. -/
def dictInsert (m : Row) (key : String) (v : Value) : Row :=
  if m.any (fun p => decide (p.1 = key)) then
    m.map (fun p => if p.1 = key then (key, v) else p)
  else
    m ++ [(key, v)]

/-- Digit value of an ASCII digit character. -/
def digitVal (c : Char) : Nat := c.toNat - 48

/-- The whitespace characters Python str.strip and the regex class \s treat as
space (ASCII portion). -/
def isSpaceChar (c : Char) : Bool :=
  c == ' ' || c == '\t' || c == '\n' || c == '\r' || c.toNat == 11 || c.toNat == 12

/-- Python str.strip(): drop leading and trailing whitespace. -/
def stripChars (cs : List Char) : List Char :=
  ((cs.dropWhile isSpaceChar).reverse.dropWhile isSpaceChar).reverse

/-- Python str.strip() on a string. -/
def pyStrip (s : String) : String := String.mk (stripChars s.data)

/-- str(value) for a non-null cell (str(None) never reaches the output, see
map_job_fields). -/
def pad2 (n : Nat) : String := if n < 10 then "0" ++ toString n else toString n

/-- Zero-pad a year to four digits, as date.isoformat does. -/
def pad4 (n : Nat) : String :=
  if n < 10 then "000" ++ toString n
  else if n < 100 then "00" ++ toString n
  else if n < 1000 then "0" ++ toString n
  else toString n

/-- date.isoformat(): the canonical YYYY-MM-DD rendering. -/
def Date.isoformat (d : Date) : String :=
  pad4 d.year ++ "-" ++ pad2 d.month ++ "-" ++ pad2 d.day

/-- str(value) for each cell shape; str(datetime) is its ISO rendering with a
space separator. -/
def pyStr : Value → String
  | Value.vnull => "None"
  | Value.vstr s => s
  | Value.vint n => toString n
  | Value.vdatetime dt =>
      dt.date.isoformat ++ " " ++ pad2 dt.hour ++ ":" ++ pad2 dt.minute ++ ":" ++ pad2 dt.second

/-- Python truthiness of a cell value (empty string, zero and None are falsy). -/
def truthy : Value → Bool
  | Value.vnull => false
  | Value.vstr s => !(s == "")
  | Value.vint n => !(n == 0)
  | Value.vdatetime _ => true

/-!  The model of datetime.strptime for the six format strings the script
uses.  CPython compiles a format into a regular expression (module _strptime):
each directive becomes an ordered alternation of digit groups, literal text is
matched verbatim, and a whitespace character of the format matches one or more
whitespace characters of the input.  The regex is matched at the start of the
string (first match in backtracking order); strptime then fails when
unconverted data remains, and the datetime constructor validates the fields. -/

/-- One token of a compiled strptime format. -/
inductive FmtTok where
  | dY | dm | dd | dH | dM | dS
  | lit (c : Char)
  | ws
  deriving DecidableEq

/-- The %Y alternation of _strptime: exactly four digits. -/
def altsY : List Char → List (Nat × List Char)
  | a :: b :: c :: d :: rest =>
      if a.isDigit && b.isDigit && c.isDigit && d.isDigit then
        [((((digitVal a) * 10 + digitVal b) * 10 + digitVal c) * 10 + digitVal d, rest)]
      else []
  | _ => []

/-- The %m alternation of _strptime: 1[0-2], then 0[1-9], then [1-9]. -/
def altsm : List Char → List (Nat × List Char)
  | a :: b :: rest =>
      (if a == '1' && b.isDigit && decide (digitVal b ≤ 2) then [(10 + digitVal b, rest)] else []) ++
      (if a == '0' && b.isDigit && decide (1 ≤ digitVal b) then [(digitVal b, rest)] else []) ++
      (if a.isDigit && decide (1 ≤ digitVal a) then [(digitVal a, b :: rest)] else [])
  | [a] => if a.isDigit && decide (1 ≤ digitVal a) then [(digitVal a, [])] else []
  | [] => []

/-- The %d alternation of _strptime: 3[01], [12] digit, 0[1-9], [1-9]. -/
def altsd : List Char → List (Nat × List Char)
  | a :: b :: rest =>
      (if a == '3' && (b == '0' || b == '1') then [(30 + digitVal b, rest)] else []) ++
      (if (a == '1' || a == '2') && b.isDigit then [(digitVal a * 10 + digitVal b, rest)] else []) ++
      (if a == '0' && b.isDigit && decide (1 ≤ digitVal b) then [(digitVal b, rest)] else []) ++
      (if a.isDigit && decide (1 ≤ digitVal a) then [(digitVal a, b :: rest)] else [])
  | [a] => if a.isDigit && decide (1 ≤ digitVal a) then [(digitVal a, [])] else []
  | [] => []

/-- The %H alternation of _strptime: 2[0-3], [0-1] digit, then one digit. -/
def altsH : List Char → List (Nat × List Char)
  | a :: b :: rest =>
      (if a == '2' && b.isDigit && decide (digitVal b ≤ 3) then [(20 + digitVal b, rest)] else []) ++
      (if (a == '0' || a == '1') && b.isDigit then [(digitVal a * 10 + digitVal b, rest)] else []) ++
      (if a.isDigit then [(digitVal a, b :: rest)] else [])
  | [a] => if a.isDigit then [(digitVal a, [])] else []
  | [] => []

/-- The %M alternation of _strptime: [0-5] digit, then one digit. -/
def altsM : List Char → List (Nat × List Char)
  | a :: b :: rest =>
      (if a.isDigit && decide (digitVal a ≤ 5) && b.isDigit then [(digitVal a * 10 + digitVal b, rest)] else []) ++
      (if a.isDigit then [(digitVal a, b :: rest)] else [])
  | [a] => if a.isDigit then [(digitVal a, [])] else []
  | [] => []

/-- The %S alternation of _strptime: 6[0-1], [0-5] digit, then one digit. -/
def altsS : List Char → List (Nat × List Char)
  | a :: b :: rest =>
      (if a == '6' && (b == '0' || b == '1') then [(60 + digitVal b, rest)] else []) ++
      (if a.isDigit && decide (digitVal a ≤ 5) && b.isDigit then [(digitVal a * 10 + digitVal b, rest)] else []) ++
      (if a.isDigit then [(digitVal a, b :: rest)] else [])
  | [a] => if a.isDigit then [(digitVal a, [])] else []
  | [] => []

/-- The alternatives of one numeric directive, in regex alternation order. -/
def numAlts : FmtTok → List Char → List (Nat × List Char)
  | FmtTok.dY, cs => altsY cs
  | FmtTok.dm, cs => altsm cs
  | FmtTok.dd, cs => altsd cs
  | FmtTok.dH, cs => altsH cs
  | FmtTok.dM, cs => altsM cs
  | FmtTok.dS, cs => altsS cs
  | _, _ => []

/-- The fields strptime extracts, with its documented defaults. -/
structure TimeFields where
  y : Nat := 1900
  mo : Nat := 1
  d : Nat := 1
  h : Nat := 0
  mi : Nat := 0
  s : Nat := 0
  deriving DecidableEq

/-- Record one captured directive value. -/
def setField : FmtTok → Nat → TimeFields → TimeFields
  | FmtTok.dY, v, tt => { tt with y := v }
  | FmtTok.dm, v, tt => { tt with mo := v }
  | FmtTok.dd, v, tt => { tt with d := v }
  | FmtTok.dH, v, tt => { tt with h := v }
  | FmtTok.dM, v, tt => { tt with mi := v }
  | FmtTok.dS, v, tt => { tt with s := v }
  | _, _, tt => tt

/-- The remainders a \s+ atom can leave, longest consumption first (greedy). -/
def wsRests (cs : List Char) : List (List Char) :=
  let k := (cs.takeWhile isSpaceChar).length
  (List.range k).map (fun i => cs.drop (k - i))

/-- All complete matches of a compiled format against a character list, each
with the unconsumed remainder, in regex backtracking order. -/
def runFmt : List FmtTok → TimeFields → List Char → List (TimeFields × List Char)
  | [], tt, cs => [(tt, cs)]
  | FmtTok.lit c :: toks, tt, cs =>
      match cs with
      | [] => []
      | c2 :: rest => if c2 == c then runFmt toks tt rest else []
  | FmtTok.ws :: toks, tt, cs =>
      (wsRests cs).flatMap (fun rest => runFmt toks tt rest)
  | tok :: toks, tt, cs =>
      (numAlts tok cs).flatMap (fun p => runFmt toks (setField tok p.1 tt) p.2)

/-- Gregorian leap year, as datetime uses. -/
def isLeap (y : Nat) : Bool := (y % 4 == 0 && !(y % 100 == 0)) || y % 400 == 0

/-- Length of a month in the proleptic Gregorian calendar. -/
def daysInMonth (y mo : Nat) : Nat :=
  if mo == 2 then (if isLeap y then 29 else 28)
  else if mo == 4 || mo == 6 || mo == 9 || mo == 11 then 30
  else 31

/-- The validation the datetime constructor performs on strptime's fields
(the regex already bounds month, day, hour and minute from below/above where
shown; seconds 60 and 61 pass the regex but not the constructor). -/
def validFields (tt : TimeFields) : Bool :=
  decide (1 ≤ tt.y) && decide (1 ≤ tt.d) && decide (tt.d ≤ daysInMonth tt.y tt.mo)
    && decide (tt.s ≤ 59)

/-- datetime.strptime(s, fmt).date(): take the first regex match, fail if input
remains, validate, and keep the calendar date. -/
def strptimeDate (fmt : List FmtTok) (s : String) : Option Date :=
  match runFmt fmt {} s.data with
  | [] => none
  | (tt, rest) :: _ =>
      if rest = [] then
        if validFields tt then some ⟨tt.y, tt.mo, tt.d⟩ else none
      else none

/-- Format string "%Y-%m-%d". -/
def fmtYmdDash : List FmtTok :=
  [FmtTok.dY, FmtTok.lit '-', FmtTok.dm, FmtTok.lit '-', FmtTok.dd]

/-- Format string "%Y/%m/%d". -/
def fmtYmdSlash : List FmtTok :=
  [FmtTok.dY, FmtTok.lit '/', FmtTok.dm, FmtTok.lit '/', FmtTok.dd]

/-- Format string "%d.%m.%Y". -/
def fmtDmyDot : List FmtTok :=
  [FmtTok.dd, FmtTok.lit '.', FmtTok.dm, FmtTok.lit '.', FmtTok.dY]

/-- Format string "%d/%m/%Y". -/
def fmtDmySlash : List FmtTok :=
  [FmtTok.dd, FmtTok.lit '/', FmtTok.dm, FmtTok.lit '/', FmtTok.dY]

/-- Format string "%Y-%m-%d %H:%M:%S" (the format's space compiles to \s+). -/
def fmtYmdDashTime : List FmtTok :=
  fmtYmdDash ++ [FmtTok.ws, FmtTok.dH, FmtTok.lit ':', FmtTok.dM, FmtTok.lit ':', FmtTok.dS]

/-- Format string "%Y/%m/%d %H:%M:%S". -/
def fmtYmdSlashTime : List FmtTok :=
  fmtYmdSlash ++ [FmtTok.ws, FmtTok.dH, FmtTok.lit ':', FmtTok.dM, FmtTok.lit ':', FmtTok.dS]

/-- The formats list of _parse_date, in source order (lines 180-187). -/
def formats : List (List FmtTok) :=
  [fmtYmdDash, fmtYmdSlash, fmtDmyDot, fmtDmySlash, fmtYmdDashTime, fmtYmdSlashTime]

/-- The for-loop of _parse_date: return the first format that parses, swallow
each ValueError and fall through to the next format. -/
def tryFormatsAux : List (List FmtTok) → String → Option Date
  | [], _ => none
  | f :: fs, s =>
      match strptimeDate f s with
      | some d => some d
      | none => tryFormatsAux fs s

/-- OldDataMigrator._parse_date (lines 174-196): empty or blank input yields
None, otherwise the stripped string is tried against the six formats in order;
if all fail, None is returned silently. -/
def _parse_date (s : String) : Option Date :=
  if s = "" ∨ pyStrip s = "" then none
  else tryFormatsAux formats (pyStrip s)

/-- datetime.fromisoformat restricted to date-only strings.  The program only
ever applies it to outputs of date.isoformat (see map_job_fields), which are
exactly the zero-padded YYYY-MM-DD strings this function accepts. -/
def fromisoformat (s : String) : Option Date :=
  match s.data with
  | [y1, y2, y3, y4, sep1, m1, m2, sep2, d1, d2] =>
      if y1.isDigit && y2.isDigit && y3.isDigit && y4.isDigit && sep1 == '-'
          && m1.isDigit && m2.isDigit && sep2 == '-' && d1.isDigit && d2.isDigit then
        let y := ((digitVal y1 * 10 + digitVal y2) * 10 + digitVal y3) * 10 + digitVal y4
        let mo := digitVal m1 * 10 + digitVal m2
        let d := digitVal d1 * 10 + digitVal d2
        if decide (1 ≤ y) && decide (1 ≤ mo) && decide (mo ≤ 12) && decide (1 ≤ d)
            && decide (d ≤ daysInMonth y mo) then
          some ⟨y, mo, d⟩
        else none
      else none
  | _ => none

/-!  Static configuration tables of OldDataMigrator (lines 24-141).  The
dictionaries become association lists in source order; the commented-out
entries of COMPANY_MAPPING are absent, exactly as in the source. -/

/-- COMPANY_MAPPING: old table name piece to new company name (lines 24-32);
only the kls and ks entries are active, the rest are commented out. -/
def COMPANY_MAPPING : List (String × String) :=
  [("kls", "KLS"), ("ks", "KarlStorz")]

/-- HIDDEN_COMPANIES (line 35). -/
def HIDDEN_COMPANIES : List String := ["Europapark", "KarlsStorz", "Schwer"]

/-- FIELD_MAPPINGS (lines 39-141): per-company old field name to new field
name, in source order. -/
def FIELD_MAPPINGS : List (String × List (String × String)) :=
  [("bbraun",
    [("JobID", "job_id"), ("Title", "title"), ("urlTitle", "url_title"),
     ("Function", "function"), ("Level", "level"), ("WorkLocation", "work_location"),
     ("WorkLocationShort", "work_location_short"),
     ("WorkLocationWithCoordinates", "work_location_with_coordinates"),
     ("CoordinatesPrimary", "coordinates_primary"), ("Country", "country"),
     ("currency", "currency"), ("supportedLocales", "supported_locales"),
     ("unifiedUrlTitle", "unified_url_title"), ("unifiedStandardEnd", "unified_standard_end"),
     ("unifiedStandardStart", "unified_standard_start"), ("DateAdded", "date_added")]),
   ("ep",
    [("URL", "url"), ("Title", "title"), ("Function", "function"),
     ("WorkLocation", "work_location"), ("ContractType", "contract_type"),
     ("Company", "department"), ("ContactPerson", "contact_person"),
     ("ContactEmail", "contact_email"), ("ContactPhone", "contact_phone"),
     ("Description", "description"), ("Offerings", "offerings"), ("Tasks", "tasks"),
     ("Qualifications", "qualifications"), ("DateAdded", "date_added")]),
   ("kauth",
    [("Title", "title"), ("JobID", "job_id"), ("URL", "url"),
     ("city", "work_location_short"), ("Contract_Type", "contract_type"),
     ("Flexibility", "flexibility"), ("Work_Location", "work_location"),
     ("Job_Level", "level"), ("ContactPerson", "contact_person"),
     ("ContactPosition", "description"), ("DateAdded", "date_added")]),
   ("kls",
    [("Title", "title"), ("Function", "function"), ("Level", "level"),
     ("WorkLocation", "work_location"), ("Flexibility", "flexibility"),
     ("JobID", "job_id"), ("ContractType", "contract_type"),
     ("ContactPerson", "contact_person"), ("Offerings", "offerings"),
     ("Tasks", "tasks"), ("Qualifications", "qualifications"),
     ("DateAdded", "date_added")]),
   ("ks",
    [("Title", "title"), ("URL", "url"), ("Function", "function"), ("Level", "level"),
     ("WorkLocation", "work_location"), ("Flexibility", "flexibility"),
     ("CompanyLocation", "work_location_short"), ("DetailLocation", "all_locations"),
     ("JobID", "job_id"), ("PayRange", "keywords"), ("DateAdded", "date_added")]),
   ("schwer",
    [("JobID", "job_id"), ("Title", "title"), ("ContractType", "contract_type"),
     ("Level", "level"), ("Keywords", "keywords"), ("Description", "description"),
     ("WorkLocation", "work_location"), ("AllLocations", "all_locations"),
     ("Flexibility", "flexibility"), ("Department", "department"),
     ("Company", "contact_person"), ("DateAdded", "date_added")]),
   ("trelectronic",
    [("Title", "title"), ("JobID", "job_id"), ("URL", "url"),
     ("city", "work_location_short"), ("Contract_Type", "contract_type"),
     ("Flexibility", "flexibility"), ("Work_Location", "work_location"),
     ("Job_Level", "level"), ("ContactPerson", "contact_person"),
     ("ContactPosition", "description"), ("DateAdded", "date_added")])]

/-- Association-list lookup for the configuration tables (dict access). -/
def tblGet {α : Type} : List (String × α) → String → Option α
  | [], _ => none
  | (k, v) :: rest, key => if k = key then some v else tblGet rest key

/-- The body of the for-loop of map_job_fields (lines 203-216), folded over the
configured (old name, new name) pairs.  A pair contributes only when the old
column is present and non-null; a string-valued date_added is parsed and kept
only when parsing succeeds; a datetime-valued date_added is rendered as an ISO
date; every other value is rendered with str.  The `else None` half of line 216
is unreachable (the guard on line 204 excludes None) but is translated as
written. -/
def mapFieldsStep (old_row : Row) (new_data : Row) (p : String × String) : Row :=
  match rowGet old_row p.1 with
  | none => new_data
  | some Value.vnull => new_data
  | some v =>
      if p.2 = "date_added" then
        match v with
        | Value.vstr s =>
            match _parse_date s with
            | some d => dictInsert new_data p.2 (Value.vstr d.isoformat)
            | none => new_data
        | Value.vdatetime dt => dictInsert new_data p.2 (Value.vstr dt.date.isoformat)
        | _ =>
            dictInsert new_data p.2
              (if v ≠ Value.vnull then Value.vstr (pyStr v) else Value.vnull)
      else
        dictInsert new_data p.2
          (if v ≠ Value.vnull then Value.vstr (pyStr v) else Value.vnull)

/-- The whole field loop of map_job_fields. -/
def mapFields (field_mapping : List (String × String)) (old_row : Row) : Row :=
  field_mapping.foldl (mapFieldsStep old_row) []

/-- OldDataMigrator.map_job_fields (lines 198-218): look the company up in
FIELD_MAPPINGS with {} as default, then run the field loop. -/
def map_job_fields (cp : String) (old_row : Row) : Row :=
  mapFields ((tblGet FIELD_MAPPINGS cp).getD []) old_row

/-- The JSON document POSTed to /api/jobs (lines 227-235): company name, the
computed hidden flag, the ISO scrape date, and the mapped fields with any None
value dropped (the dict comprehension of line 235; company_name, hidden and
scrape_date are never None). -/
structure Payload where
  company_name : String
  hidden : Bool
  scrape_date : String
  fields : Row
  deriving DecidableEq

/-- Build the payload of insert_job_via_api (lines 224-235). -/
def buildPayload (company_name : String) (job_data : Row) (scrape_date : Date) : Payload :=
  { company_name := company_name
    hidden := HIDDEN_COMPANIES.contains company_name
    scrape_date := scrape_date.isoformat
    fields := job_data.filter (fun kv => decide (kv.2 ≠ Value.vnull)) }

/-- What the HTTP session yields for one POST: the final response's status
code and whether its body is valid JSON.  A request that fails at the network
level yields no response at all (modelled by the caller passing none). -/
structure HttpResponse where
  status : Nat
  jsonOk : Bool
  deriving DecidableEq

/-- The try block of insert_job_via_api (lines 237-246).  raise_for_status
raises HTTPError exactly for status codes in [400, 600); response.json()
raises requests.exceptions.JSONDecodeError (a RequestException subclass in
requests since 2.27) when the body is not JSON; both land in the same except
clause, which logs and returns False.  none models a request that raised a
RequestException before producing a response. -/
def responseOk : Option HttpResponse → Bool
  | none => false
  | some resp =>
      if 400 ≤ resp.status ∧ resp.status < 600 then false
      else resp.jsonOk

/-- OldDataMigrator.insert_job_via_api (lines 220-246): build the payload,
POST it, and reduce the outcome to a success flag without raising. -/
def insert_job_via_api (api : Payload → Option HttpResponse) (company_name : String)
    (job_data : Row) (scrape_date : Date) : Bool :=
  responseOk (api (buildPayload company_name job_data scrape_date))

/-!  The per-company migration (migrate_company, lines 248-362).  The two
cursor queries are modelled from their SQL over explicit table contents; the
loop bodies are folded over the fetched row lists.  The trace of issued POSTs
is carried in the state so the submission sequence is observable. -/

/-- One row of a <name>_listings table: integer primary key id plus the other
columns; `cols` are the columns after id, in table order. -/
structure Listing where
  id : Int
  cols : Row
  deriving DecidableEq

/-- The dict the cursor yields for `SELECT j.*`: id first, then the rest. -/
def listingDict (L : Listing) : Row := ("id", Value.vint L.id) :: L.cols

/-- One row of a <name>_dates table: primary key id, foreign key job_id, and
the ScrapeDate column (none models SQL NULL; the column holds text). -/
structure DateEventRow where
  id : Int
  job_id : Int
  scrapeDate : Option String
  deriving DecidableEq

/-- The contents of one company's pair of legacy tables. -/
structure SourceData where
  listings : List Listing
  dates : List DateEventRow
  deriving DecidableEq

/-- One fetched row of the INNER JOIN query (lines 262-270): all listing
columns plus d.ScrapeDate and d.id AS date_entry_id. -/
structure JoinRow where
  listing : Listing
  scrapeDate : Option String
  dateEntryId : Int
  deriving DecidableEq

/-- The dict the cursor yields for one join row: the listing columns, then the
two added columns (a duplicate column name would be overwritten by the later
one, which dictInsert reproduces). -/
def joinDict (r : JoinRow) : Row :=
  dictInsert
    (dictInsert (listingDict r.listing) "ScrapeDate"
      (match r.scrapeDate with
       | none => Value.vnull
       | some s => Value.vstr s))
    "date_entry_id" (Value.vint r.dateEntryId)

/-- The join rows before ORDER BY: every dates row paired with its listing. -/
def joinRowsRaw (data : SourceData) : List JoinRow :=
  data.dates.flatMap (fun e =>
    (data.listings.filter (fun L => decide (L.id = e.job_id))).map
      (fun L => ⟨L, e.scrapeDate, e.id⟩))

/-- Lexicographic byte-wise comparison of two character lists, as the
database compares the text of the ScrapeDate column for ORDER BY. -/
def charListLe : List Char → List Char → Bool
  | [], _ => true
  | _ :: _, [] => false
  | c1 :: r1, c2 :: r2 =>
      if c1.toNat < c2.toNat then true
      else if c2.toNat < c1.toNat then false
      else charListLe r1 r2

/-- ScrapeDate column comparison for ORDER BY: SQL NULL sorts first ascending,
strings sort lexicographically. -/
def sdLeB : Option String → Option String → Bool
  | none, _ => true
  | some _, none => false
  | some a, some b => charListLe a.data b.data

/-- ORDER BY j.id, d.ScrapeDate comparison. -/
def joinLeB (r1 r2 : JoinRow) : Bool :=
  decide (r1.listing.id < r2.listing.id)
    || (decide (r1.listing.id = r2.listing.id) && sdLeB r1.scrapeDate r2.scrapeDate)

/-- Insertion into a run sorted by joinLeB. -/
def orderedInsertJ (r : JoinRow) : List JoinRow → List JoinRow
  | [] => [r]
  | x :: xs => if joinLeB r x then r :: x :: xs else x :: orderedInsertJ r xs

/-- The ORDER BY of the join query: sort the join rows by (j.id, ScrapeDate). -/
def sortJoin : List JoinRow → List JoinRow
  | [] => []
  | x :: xs => orderedInsertJ x (sortJoin xs)

/-- cursor.fetchall() of the join query (all_rows, line 273). -/
def fetchJoinRows (data : SourceData) : List JoinRow :=
  sortJoin (joinRowsRaw data)

/-- cursor.fetchall() of the LEFT JOIN / IS NULL query (jobs_without_dates,
line 283): the listings no dates row references, in table order. -/
def fetchNoDates (data : SourceData) : List Listing :=
  data.listings.filter (fun L => !(data.dates.any (fun e => decide (e.job_id = L.id))))

/-- Lines 297-302: read ScrapeDate from the row dict; when it is truthy (a
non-empty string) parse it, otherwise leave scrape_date as None.  The column
is a string or NULL, so the dict value is exactly the scrapeDate field. -/
def scrapeDateOf (r : JoinRow) : Option Date :=
  match r.scrapeDate with
  | none => none
  | some s => if s = "" then none else _parse_date s

/-- The mutable loop state of migrate_company (lines 287-290) together with
the trace of POSTs issued so far. -/
structure MigState where
  jobs_migrated : Nat
  dates_migrated : Nat
  errors : Nat
  processed_jobs : List Int
  submissions : List Payload
  deriving DecidableEq

/-- The initial loop state (no rows processed, nothing submitted). -/
def initState : MigState :=
  { jobs_migrated := 0, dates_migrated := 0, errors := 0
    processed_jobs := [], submissions := [] }

/-- The record a join-loop iteration submits, when it submits one (lines
293-331): None exactly when the date check on lines 305-307 hits continue.
The statements after that continue (lines 309-315, the fallback to date_added
or today) are unreachable and therefore absent here. -/
def joinSubmission (cp company_name : String) (r : JoinRow) : Option Payload :=
  match scrapeDateOf r with
  | none => none
  | some d => some (buildPayload company_name (map_job_fields cp (joinDict r)) d)

/-- One iteration of the join-rows loop (lines 293-331).  On an unparseable or
missing date the warning is printed and the iteration ends (continue); the
state, including the unique-job set, is untouched.  Otherwise the record is
POSTed, the success or error counter moves, and row["id"] is added to the
unique-job set when new. -/
def stepJoin (cp company_name : String) (api : Payload → Option HttpResponse)
    (today : Date) (s : MigState) (r : JoinRow) : MigState :=
  match scrapeDateOf r with
  | none => s
  | some d =>
      let job_data := map_job_fields cp (joinDict r)
      let success := insert_job_via_api api company_name job_data d
      { jobs_migrated :=
          if r.listing.id ∈ s.processed_jobs then s.jobs_migrated
          else s.jobs_migrated + 1
        dates_migrated := s.dates_migrated + (if success then 1 else 0)
        errors := s.errors + (if success then 0 else 1)
        processed_jobs :=
          if r.listing.id ∈ s.processed_jobs then s.processed_jobs
          else r.listing.id :: s.processed_jobs
        submissions := s.submissions ++ [buildPayload company_name job_data d] }

/-- Lines 337-343: the scrape date for a listing with no date rows is today,
overridden by fromisoformat(job_data["date_added"]) when that key is present
and truthy and the call succeeds; any exception (a non-string value raises
TypeError, caught by the bare except) leaves today in place. -/
def noDateScrapeDate (job_data : Row) (today : Date) : Date :=
  match rowGet job_data "date_added" with
  | some (Value.vstr v) => if v = "" then today else (fromisoformat v).getD today
  | some _ => today
  | none => today

/-- The record one iteration of the dateless loop submits (lines 334-351). -/
def noDateSubmission (cp company_name : String) (today : Date) (L : Listing) : Payload :=
  let job_data := map_job_fields cp (listingDict L)
  buildPayload company_name job_data (noDateScrapeDate job_data today)

/-- One iteration of the dateless-listings loop (lines 334-351): always POST
exactly one record, move the success or error counter, and count the listing
(the unique-job set is not consulted here, matching the source). -/
def stepNoDate (cp company_name : String) (api : Payload → Option HttpResponse)
    (today : Date) (s : MigState) (L : Listing) : MigState :=
  let job_data := map_job_fields cp (listingDict L)
  let success := insert_job_via_api api company_name job_data (noDateScrapeDate job_data today)
  { jobs_migrated := s.jobs_migrated + 1
    dates_migrated := s.dates_migrated + (if success then 1 else 0)
    errors := s.errors + (if success then 0 else 1)
    processed_jobs := s.processed_jobs
    submissions := s.submissions ++ [noDateSubmission cp company_name today L] }

/-- OldDataMigrator.migrate_company (lines 248-362): resolve the company name
(line 250 raises KeyError for an unconfigured company, modelled as none), run
both queries, then both loops.  The returned state carries the per-company
counters that lines 353-362 print and merge. -/
def migrate_company (api : Payload → Option HttpResponse) (today : Date)
    (cp : String) (data : SourceData) : Option MigState :=
  match tblGet COMPANY_MAPPING cp with
  | none => none
  | some company_name =>
      let s1 := (fetchJoinRows data).foldl (stepJoin cp company_name api today) initState
      let s2 := (fetchNoDates data).foldl (stepNoDate cp company_name api today) s1
      some s2

/-- The run-wide statistics dict (lines 157-162 and 355-362). -/
structure Stats where
  total_jobs : Nat
  total_dates : Nat
  errors : Nat
  by_company : List (String × Nat × Nat × Nat)
  deriving DecidableEq

/-- self.stats at construction time. -/
def initialStats : Stats := { total_jobs := 0, total_dates := 0, errors := 0, by_company := [] }

/-- The observable outcome of running the whole migrator process. -/
structure RunResult where
  exitCode : Nat
  connectionClosed : Bool
  attempted : List String
  stats : Stats

/-- The body of the for-loop of migrate_all (lines 369-375): if migrating this
company raises an unexpected exception (oracle `raises`, covering database and
programming errors), the except clause logs it and the loop moves on with the
stats untouched; otherwise the company's counters are merged (lines 353-362). -/
def migrateAllStep (raises : String → Bool) (dataOf : String → SourceData)
    (api : Payload → Option HttpResponse) (today : Date)
    (acc : Stats × List String) (entry : String × String) : Stats × List String :=
  if raises entry.1 then (acc.1, acc.2 ++ [entry.1])
  else
    match migrate_company api today entry.1 (dataOf entry.1) with
    | none => (acc.1, acc.2 ++ [entry.1])
    | some st =>
        ({ total_jobs := acc.1.total_jobs + st.jobs_migrated
           total_dates := acc.1.total_dates + st.dates_migrated
           errors := acc.1.errors + st.errors
           by_company := acc.1.by_company ++
             [(entry.2, st.jobs_migrated, st.dates_migrated, st.errors)] },
         acc.2 ++ [entry.1])

/-- OldDataMigrator.migrate_all with connect_db (lines 164-172 and 364-379).
A failed initial connection calls sys.exit(1) before any connection exists;
otherwise every configured company is attempted inside try/except, the
connection is closed in the finally block on every path, and the process
prints the summary and ends with exit status 0. -/
def migrate_all (connectOk : Bool) (raises : String → Bool)
    (dataOf : String → SourceData) (api : Payload → Option HttpResponse)
    (today : Date) : RunResult :=
  if connectOk then
    let z := COMPANY_MAPPING.foldl (migrateAllStep raises dataOf api today) (initialStats, [])
    { exitCode := 0, connectionClosed := true, attempted := z.2, stats := z.1 }
  else
    { exitCode := 1, connectionClosed := false, attempted := [], stats := initialStats }

/-!  Concrete companies, responses and table contents used to evaluate the
embedding inside closed statements. -/

/-- A fixed current date for concrete runs. -/
def exToday : Date := ⟨2025, 6, 1⟩

/-- An API that accepts everything with a JSON body. -/
def exApiOk : Payload → Option HttpResponse := fun _ => some ⟨200, true⟩

/-- An API that answers 500 to everything. -/
def exApi500 : Payload → Option HttpResponse := fun _ => some ⟨500, true⟩

/-- An API whose final response is 303 with a JSON body. -/
def exApi303 : Payload → Option HttpResponse := fun _ => some ⟨303, true⟩

/-- An API that answers 200 with a non-JSON body. -/
def exApi200Bad : Payload → Option HttpResponse := fun _ => some ⟨200, false⟩

/-- A listing with two date-events in exData. -/
def exL1 : Listing := ⟨1, [("Title", Value.vstr "Engineer"), ("JobID", Value.vstr "42")]⟩

/-- A listing with no date-events in exData. -/
def exL2 : Listing := ⟨2, [("Title", Value.vstr "Tester"), ("DateAdded", Value.vstr "2023-05-01")]⟩

/-- A small source: one listing with two parseable date-events, one dateless. -/
def exData : SourceData :=
  ⟨[exL1, exL2], [⟨11, 1, some "2023-01-10"⟩, ⟨12, 1, some "2023-01-15"⟩]⟩

/-- The state after migrating exData as company kls. -/
def exSt : MigState := (migrate_company exApiOk exToday "kls" exData).getD initState

/-- A source whose single listing has one date-event with an unparseable date. -/
def exDataBadDate : SourceData :=
  ⟨[⟨7, [("Title", Value.vstr "T")]⟩], [⟨21, 7, some "nodate"⟩]⟩

/-- The state after migrating exDataBadDate as company kls. -/
def exStBad : MigState := (migrate_company exApiOk exToday "kls" exDataBadDate).getD initState

/-- A join row carrying an unparseable ScrapeDate. -/
def exBadRow : JoinRow := ⟨⟨9, []⟩, some "not-a-date", 5⟩

/-- Every company resolves to exData. -/
def exDataOf : String → SourceData := fun _ => exData

/-- An exception oracle under which every company raises. -/
def exRaisesAll : String → Bool := fun _ => true

/-!  General lemmas about the embedding, shared by the claim theorems. -/

/-- Equation lemma for responseOk on a received response. -/
theorem responseOk_some (resp : HttpResponse) :
    responseOk (some resp) =
      if 400 ≤ resp.status ∧ resp.status < 600 then false else resp.jsonOk := rfl

/-- Equation lemma for responseOk on a request that raised. -/
theorem responseOk_none : responseOk none = false := rfl

/-- Stripping the empty string. -/
theorem pyStrip_empty : pyStrip "" = "" := rfl

/-- The format loop returns None when every format fails. -/
theorem tryFormatsAux_all_none (s : String) :
    ∀ fs : List (List FmtTok), (∀ f ∈ fs, strptimeDate f s = none) →
      tryFormatsAux fs s = none := by
  intro fs
  induction fs with
  | nil => intro _; rfl
  | cons f fs2 ih =>
      intro h
      unfold tryFormatsAux
      rw [h f (List.mem_cons_self f fs2)]
      exact ih (fun g hg => h g (List.mem_cons_of_mem f hg))

/-- The format loop returns the first format that succeeds. -/
theorem tryFormatsAux_first (s : String) (d : Date) :
    ∀ (fs : List (List FmtTok)) (i : Nat) (hi : i < fs.length),
      strptimeDate (fs.get ⟨i, hi⟩) s = some d →
      (∀ j (hj : j < i), strptimeDate (fs.get ⟨j, Nat.lt_trans hj hi⟩) s = none) →
      tryFormatsAux fs s = some d := by
  intro fs
  induction fs with
  | nil => intro i hi; exact absurd hi (Nat.not_lt_zero i)
  | cons f fs2 ih =>
      intro i hi hsome hprev
      cases i with
      | zero =>
          unfold tryFormatsAux
          rw [show strptimeDate ((f :: fs2).get ⟨0, hi⟩) s = strptimeDate f s from rfl] at hsome
          rw [hsome]
      | succ i2 =>
          unfold tryFormatsAux
          have h0 : strptimeDate f s = none := hprev 0 (Nat.succ_pos i2)
          rw [h0]
          exact ih i2 (Nat.lt_of_succ_lt_succ hi) hsome
            (fun j hj => hprev (j + 1) (Nat.succ_lt_succ hj))

/-- A fold invariant principle for the loops of the migrator. -/
theorem foldl_inv {α β : Type} (P : α → Prop) (f : α → β → α) :
    ∀ (l : List β) (a : α), P a → (∀ x b, b ∈ l → P x → P (f x b)) → P (l.foldl f a) := by
  intro l
  induction l with
  | nil => intro a h0 _; exact h0
  | cons b rest ih =>
      intro a h0 hstep
      rw [List.foldl_cons]
      exact ih (f a b) (hstep a b (List.mem_cons_self b rest) h0)
        (fun x c hc hx => hstep x c (List.mem_cons_of_mem b hc) hx)

/-- Membership after a dict assignment: the element was there before or is the
new binding. -/
theorem mem_dictInsert {m : Row} {key : String} {v : Value} {kv : String × Value}
    (h : kv ∈ dictInsert m key v) : kv ∈ m ∨ kv = (key, v) := by
  unfold dictInsert at h
  by_cases hany : m.any (fun p => decide (p.1 = key)) = true
  · rw [if_pos hany] at h
    rcases List.mem_map.mp h with ⟨p, hp, hpe⟩
    by_cases hk : p.1 = key
    · right; rw [if_pos hk] at hpe; exact hpe.symm
    · left; rw [if_neg hk] at hpe; exact hpe ▸ hp
  · rw [if_neg hany] at h
    rcases List.mem_append.mp h with h1 | h1
    · exact Or.inl h1
    · exact Or.inr (List.mem_singleton.mp h1)

/-- Replacing the bindings of another key does not change a lookup. -/
theorem rowGet_mapkeep (key k : String) (v : Value) (h : k ≠ key) :
    ∀ m : Row, rowGet (m.map (fun p => if p.1 = key then (key, v) else p)) k = rowGet m k := by
  intro m
  induction m with
  | nil => rfl
  | cons p rest ih =>
      rw [List.map_cons]
      by_cases hp : p.1 = key
      · rw [if_pos hp]
        show rowGet ((key, v) :: _) k = rowGet (p :: rest) k
        cases p with
        | mk p1 p2 =>
            unfold rowGet
            rw [if_neg (fun he : key = k => h he.symm), if_neg (fun he : p1 = k => h (he ▸ hp))]
            exact ih
      · rw [if_neg hp]
        show rowGet (p :: _) k = rowGet (p :: rest) k
        cases p with
        | mk p1 p2 =>
            unfold rowGet
            by_cases hpk : p1 = k
            · rw [if_pos hpk, if_pos hpk]
            · rw [if_neg hpk, if_neg hpk]; exact ih

/-- Appending a binding for another key does not change a lookup. -/
theorem rowGet_append_one (key k : String) (v : Value) (h : k ≠ key) :
    ∀ m : Row, rowGet (m ++ [(key, v)]) k = rowGet m k := by
  intro m
  induction m with
  | nil =>
      show rowGet [(key, v)] k = rowGet [] k
      unfold rowGet
      rw [if_neg (fun he : key = k => h he.symm)]
      rfl
  | cons p rest ih =>
      cases p with
      | mk p1 p2 =>
          show rowGet ((p1, p2) :: (rest ++ [(key, v)])) k = rowGet ((p1, p2) :: rest) k
          unfold rowGet
          by_cases hpk : p1 = k
          · rw [if_pos hpk, if_pos hpk]
          · rw [if_neg hpk, if_neg hpk]; exact ih

/-- Dict assignment of another key does not change a lookup. -/
theorem rowGet_dictInsert_ne (m : Row) (key k : String) (v : Value) (h : k ≠ key) :
    rowGet (dictInsert m key v) k = rowGet m k := by
  unfold dictInsert
  by_cases hany : m.any (fun p => decide (p.1 = key)) = true
  · rw [if_pos hany]; exact rowGet_mapkeep key k v h m
  · rw [if_neg hany]; exact rowGet_append_one key k v h m

/-- The field-loop body reads the old row only through the looked-up column. -/
theorem mapFieldsStep_congr (r1 r2 : Row) (acc : Row) (p : String × String)
    (h : rowGet r1 p.1 = rowGet r2 p.1) :
    mapFieldsStep r1 acc p = mapFieldsStep r2 acc p := by
  unfold mapFieldsStep
  rw [h]

/-- Two rows that agree on every configured column map identically. -/
theorem mapFields_congr (fm : List (String × String)) (r1 r2 : Row)
    (h : ∀ p ∈ fm, rowGet r1 p.1 = rowGet r2 p.1) : mapFields fm r1 = mapFields fm r2 := by
  unfold mapFields
  have aux : ∀ (l : List (String × String)) (acc : Row),
      (∀ p ∈ l, rowGet r1 p.1 = rowGet r2 p.1) →
      l.foldl (mapFieldsStep r1) acc = l.foldl (mapFieldsStep r2) acc := by
    intro l
    induction l with
    | nil => intro acc _; rfl
    | cons p rest ih =>
        intro acc hl
        rw [List.foldl_cons, List.foldl_cons,
          mapFieldsStep_congr r1 r2 acc p (hl p (List.mem_cons_self p rest))]
        exact ih _ (fun q hq => hl q (List.mem_cons_of_mem p hq))
  exact aux fm [] h

/-- Equation lemma: a row whose date check fails leaves the state untouched. -/
theorem stepJoin_none {cp cn : String} {api : Payload → Option HttpResponse}
    {today : Date} {s : MigState} {r : JoinRow} (h : scrapeDateOf r = none) :
    stepJoin cp cn api today s r = s := by
  unfold stepJoin
  rw [h]

/-- Equation lemma: a row whose date parses submits one record and updates the
counters. -/
theorem stepJoin_some {cp cn : String} {api : Payload → Option HttpResponse}
    {today : Date} {s : MigState} {r : JoinRow} {d : Date} (h : scrapeDateOf r = some d) :
    stepJoin cp cn api today s r =
      { jobs_migrated :=
          if r.listing.id ∈ s.processed_jobs then s.jobs_migrated else s.jobs_migrated + 1
        dates_migrated := s.dates_migrated +
          (if insert_job_via_api api cn (map_job_fields cp (joinDict r)) d then 1 else 0)
        errors := s.errors +
          (if insert_job_via_api api cn (map_job_fields cp (joinDict r)) d then 0 else 1)
        processed_jobs :=
          if r.listing.id ∈ s.processed_jobs then s.processed_jobs
          else r.listing.id :: s.processed_jobs
        submissions := s.submissions ++
          [buildPayload cn (map_job_fields cp (joinDict r)) d] } := by
  unfold stepJoin
  rw [h]

/-- The join loop appends exactly the submissions of its rows, in row order. -/
theorem foldJoin_submissions (cp cn : String) (api : Payload → Option HttpResponse)
    (today : Date) :
    ∀ (rows : List JoinRow) (s : MigState),
      (rows.foldl (stepJoin cp cn api today) s).submissions
        = s.submissions ++ rows.filterMap (joinSubmission cp cn) := by
  intro rows
  induction rows with
  | nil => intro s; simp
  | cons r rest ih =>
      intro s
      rw [List.foldl_cons, ih]
      cases h : scrapeDateOf r with
      | none =>
          rw [stepJoin_none h]
          simp [joinSubmission, h]
      | some d =>
          rw [stepJoin_some h]
          simp [joinSubmission, h]

/-- The join loop only ever adds row ids that carried a parseable date. -/
theorem foldJoin_processed_mem (cp cn : String) (api : Payload → Option HttpResponse)
    (today : Date) :
    ∀ (rows : List JoinRow) (s : MigState) (j : Int),
      (j ∈ (rows.foldl (stepJoin cp cn api today) s).processed_jobs ↔
        j ∈ s.processed_jobs ∨ ∃ r ∈ rows, r.listing.id = j ∧ scrapeDateOf r ≠ none) := by
  intro rows
  induction rows with
  | nil => intro s j; simp
  | cons r rest ih =>
      intro s j
      rw [List.foldl_cons, ih, List.exists_mem_cons_iff]
      cases h : scrapeDateOf r with
      | none =>
          rw [stepJoin_none h]
          constructor
          · rintro (hs | he)
            · exact Or.inl hs
            · exact Or.inr (Or.inr he)
          · rintro (hs | ⟨_, hne⟩ | he)
            · exact Or.inl hs
            · exact absurd rfl hne
            · exact Or.inr he
      | some d =>
          rw [stepJoin_some h]
          by_cases hc : r.listing.id ∈ s.processed_jobs
          · simp only [if_pos hc]
            constructor
            · rintro (hs | he)
              · exact Or.inl hs
              · exact Or.inr (Or.inr he)
            · rintro (hs | ⟨hid, _⟩ | he)
              · exact Or.inl hs
              · exact Or.inl (hid ▸ hc)
              · exact Or.inr he
          · simp only [if_neg hc, List.mem_cons]
            constructor
            · rintro ((hj | hs) | he)
              · exact Or.inr (Or.inl ⟨hj.symm, Option.some_ne_none d⟩)
              · exact Or.inl hs
              · exact Or.inr (Or.inr he)
            · rintro (hs | ⟨hid, _⟩ | he)
              · exact Or.inl (Or.inr hs)
              · exact Or.inl (Or.inl hid.symm)
              · exact Or.inr he

/-- The join loop keeps the unique-job set free of duplicates. -/
theorem foldJoin_processed_nodup (cp cn : String) (api : Payload → Option HttpResponse)
    (today : Date) (rows : List JoinRow) (s : MigState) (h0 : s.processed_jobs.Nodup) :
    ((rows.foldl (stepJoin cp cn api today) s).processed_jobs).Nodup := by
  apply foldl_inv (fun x => x.processed_jobs.Nodup) _ rows s h0
  intro x r _ hx
  cases h : scrapeDateOf r with
  | none => rw [stepJoin_none h]; exact hx
  | some d =>
      rw [stepJoin_some h]
      by_cases hc : r.listing.id ∈ x.processed_jobs
      · simpa [if_pos hc] using hx
      · simpa [if_neg hc] using List.Nodup.cons hc hx

/-- The unique-job counter of the join loop equals the size of the set. -/
theorem foldJoin_jobs_len (cp cn : String) (api : Payload → Option HttpResponse)
    (today : Date) (rows : List JoinRow) (s : MigState)
    (h0 : s.jobs_migrated = s.processed_jobs.length) :
    (rows.foldl (stepJoin cp cn api today) s).jobs_migrated
      = ((rows.foldl (stepJoin cp cn api today) s).processed_jobs).length := by
  apply foldl_inv (fun x => x.jobs_migrated = x.processed_jobs.length) _ rows s h0
  intro x r _ hx
  cases h : scrapeDateOf r with
  | none => rw [stepJoin_none h]; exact hx
  | some d =>
      rw [stepJoin_some h]
      by_cases hc : r.listing.id ∈ x.processed_jobs
      · simpa [if_pos hc] using hx
      · simp [if_neg hc, hx]

/-- The dateless loop appends exactly one submission per listing, in order. -/
theorem foldNoDate_submissions (cp cn : String) (api : Payload → Option HttpResponse)
    (today : Date) :
    ∀ (ls : List Listing) (s : MigState),
      (ls.foldl (stepNoDate cp cn api today) s).submissions
        = s.submissions ++ ls.map (noDateSubmission cp cn today) := by
  intro ls
  induction ls with
  | nil => intro s; simp
  | cons L rest ih =>
      intro s
      rw [List.foldl_cons, ih]
      simp [stepNoDate]

/-- The dateless loop never touches the unique-job set. -/
theorem foldNoDate_processed (cp cn : String) (api : Payload → Option HttpResponse)
    (today : Date) :
    ∀ (ls : List Listing) (s : MigState),
      (ls.foldl (stepNoDate cp cn api today) s).processed_jobs = s.processed_jobs := by
  intro ls
  induction ls with
  | nil => intro s; rfl
  | cons L rest ih =>
      intro s
      rw [List.foldl_cons, ih]
      rfl

/-- The dateless loop adds one to the job counter per listing. -/
theorem foldNoDate_jobs (cp cn : String) (api : Payload → Option HttpResponse)
    (today : Date) :
    ∀ (ls : List Listing) (s : MigState),
      (ls.foldl (stepNoDate cp cn api today) s).jobs_migrated
        = s.jobs_migrated + ls.length := by
  intro ls
  induction ls with
  | nil => intro s; simp
  | cons L rest ih =>
      intro s
      rw [List.foldl_cons, ih]
      simp [stepNoDate]
      omega

/-- Unfolding migrate_company for a configured company. -/
theorem migrate_company_eq (api : Payload → Option HttpResponse) (today : Date)
    (cp cn : String) (data : SourceData) (h : tblGet COMPANY_MAPPING cp = some cn) :
    migrate_company api today cp data =
      some ((fetchNoDates data).foldl (stepNoDate cp cn api today)
        ((fetchJoinRows data).foldl (stepJoin cp cn api today) initState)) := by
  unfold migrate_company
  rw [h]

/-- The trace of one migrated company: the dated rows in fetched order, then
the dateless listings in fetched order. -/
theorem migrate_company_submissions (api : Payload → Option HttpResponse) (today : Date)
    (cp cn : String) (data : SourceData) (st : MigState)
    (hcn : tblGet COMPANY_MAPPING cp = some cn)
    (hst : migrate_company api today cp data = some st) :
    st.submissions = (fetchJoinRows data).filterMap (joinSubmission cp cn)
      ++ (fetchNoDates data).map (noDateSubmission cp cn today) := by
  have hx := migrate_company_eq api today cp cn data hcn
  rw [hst] at hx
  rw [Option.some.inj hx, foldNoDate_submissions, foldJoin_submissions]
  simp [initState]


/-- The character-list comparison is total. -/
theorem charListLe_total : ∀ a b : List Char, charListLe a b = true ∨ charListLe b a = true := by
  intro a
  induction a with
  | nil => intro b; exact Or.inl rfl
  | cons c1 r1 ih =>
      intro b
      cases b with
      | nil => exact Or.inr rfl
      | cons c2 r2 =>
          by_cases h1 : c1.toNat < c2.toNat
          · exact Or.inl (by simp [charListLe, h1])
          · by_cases h2 : c2.toNat < c1.toNat
            · exact Or.inr (by simp [charListLe, h2])
            · rcases ih r2 with h | h
              · exact Or.inl (by simp [charListLe, h1, h2, h])
              · exact Or.inr (by simp [charListLe, h1, h2, h])

/-- The character-list comparison is transitive. -/
theorem charListLe_trans : ∀ a b c : List Char,
    charListLe a b = true → charListLe b c = true → charListLe a c = true := by
  intro a
  induction a with
  | nil => intro b c _ _; rfl
  | cons c1 r1 ih =>
      intro b c hab hbc
      cases b with
      | nil => exact absurd hab (by simp [charListLe])
      | cons c2 r2 =>
          cases c with
          | nil => exact absurd hbc (by simp [charListLe])
          | cons c3 r3 =>
              simp only [charListLe] at hab hbc ⊢
              by_cases h13 : c1.toNat < c3.toNat
              · simp [h13]
              · by_cases h12 : c1.toNat < c2.toNat
                · by_cases h23 : c2.toNat < c3.toNat
                  · omega
                  · by_cases h32 : c3.toNat < c2.toNat
                    · rw [if_neg h23, if_pos h32] at hbc
                      exact Bool.noConfusion hbc
                    · omega
                · by_cases h21 : c2.toNat < c1.toNat
                  · rw [if_neg h12, if_pos h21] at hab
                    exact Bool.noConfusion hab
                  · by_cases h23 : c2.toNat < c3.toNat
                    · omega
                    · by_cases h32 : c3.toNat < c2.toNat
                      · rw [if_neg h23, if_pos h32] at hbc
                        exact Bool.noConfusion hbc
                      · have h31 : ¬ c3.toNat < c1.toNat := by omega
                        rw [if_neg h12, if_neg h21] at hab
                        rw [if_neg h23, if_neg h32] at hbc
                        rw [if_neg h13, if_neg h31]
                        exact ih r2 r3 hab hbc

/-- The ScrapeDate comparison is total. -/
theorem sdLeB_total (x y : Option String) : sdLeB x y = true ∨ sdLeB y x = true := by
  cases x with
  | none => exact Or.inl rfl
  | some a =>
      cases y with
      | none => exact Or.inr rfl
      | some b => exact charListLe_total a.data b.data

/-- The ScrapeDate comparison is transitive. -/
theorem sdLeB_trans {x y z : Option String} (h1 : sdLeB x y = true) (h2 : sdLeB y z = true) :
    sdLeB x z = true := by
  cases x with
  | none => rfl
  | some a =>
      cases y with
      | none => exact absurd h1 (by simp [sdLeB])
      | some b =>
          cases z with
          | none => exact absurd h2 (by simp [sdLeB])
          | some c => exact charListLe_trans a.data b.data c.data h1 h2

/-- The ORDER BY comparison is total. -/
theorem joinLeB_total (a b : JoinRow) : joinLeB a b = true ∨ joinLeB b a = true := by
  unfold joinLeB
  rcases lt_trichotomy a.listing.id b.listing.id with h | h | h
  · left; simp [h]
  · rcases sdLeB_total a.scrapeDate b.scrapeDate with hs | hs
    · left; simp [h, hs]
    · right; simp [h.symm, hs]
  · right; simp [h]

/-- The ORDER BY comparison is transitive. -/
theorem joinLeB_trans {a b c : JoinRow} (h1 : joinLeB a b = true) (h2 : joinLeB b c = true) :
    joinLeB a c = true := by
  unfold joinLeB at h1 h2 ⊢
  simp only [Bool.or_eq_true, Bool.and_eq_true, decide_eq_true_eq] at h1 h2 ⊢
  rcases h1 with h1 | ⟨he1, hs1⟩ <;> rcases h2 with h2 | ⟨he2, hs2⟩
  · exact Or.inl (lt_trans h1 h2)
  · exact Or.inl (he2 ▸ h1)
  · exact Or.inl (he1.symm ▸ h2)
  · exact Or.inr ⟨he1.trans he2, sdLeB_trans hs1 hs2⟩

/-- Ordered insertion permutes to consing. -/
theorem orderedInsertJ_perm (r : JoinRow) :
    ∀ l : List JoinRow, List.Perm (orderedInsertJ r l) (r :: l) := by
  intro l
  induction l with
  | nil => exact List.Perm.refl _
  | cons x xs ih =>
      unfold orderedInsertJ
      by_cases hc : joinLeB r x = true
      · rw [if_pos hc]
      · rw [if_neg hc]
        exact (List.Perm.cons x ih).trans (List.Perm.swap r x xs)

/-- The ORDER BY sort permutes the raw rows. -/
theorem sortJoin_perm : ∀ l : List JoinRow, List.Perm (sortJoin l) l := by
  intro l
  induction l with
  | nil => exact List.Perm.refl _
  | cons x xs ih =>
      unfold sortJoin
      exact (orderedInsertJ_perm x (sortJoin xs)).trans (List.Perm.cons x ih)

/-- Membership after ordered insertion. -/
theorem mem_orderedInsertJ {b r : JoinRow} {l : List JoinRow}
    (h : b ∈ orderedInsertJ r l) : b = r ∨ b ∈ l :=
  List.mem_cons.mp ((orderedInsertJ_perm r l).mem_iff.mp h)

/-- Ordered insertion preserves sortedness. -/
theorem pairwise_orderedInsertJ (r : JoinRow) :
    ∀ l : List JoinRow, List.Pairwise (fun a b => joinLeB a b = true) l →
      List.Pairwise (fun a b => joinLeB a b = true) (orderedInsertJ r l) := by
  intro l
  induction l with
  | nil => intro _; simp [orderedInsertJ]
  | cons x xs ih =>
      intro hl
      unfold orderedInsertJ
      by_cases hc : joinLeB r x = true
      · rw [if_pos hc]
        apply List.Pairwise.cons
        · intro b hb
          rcases List.mem_cons.mp hb with rfl | hb2
          · exact hc
          · exact joinLeB_trans hc (List.rel_of_pairwise_cons hl hb2)
        · exact hl
      · rw [if_neg hc]
        have hxr : joinLeB x r = true := (joinLeB_total r x).resolve_left hc
        apply List.Pairwise.cons
        · intro b hb
          rcases mem_orderedInsertJ hb with rfl | hb2
          · exact hxr
          · exact List.rel_of_pairwise_cons hl hb2
        · exact ih (List.Pairwise.of_cons hl)

/-- The fetched join rows are sorted by (listing id, ScrapeDate). -/
theorem sortJoin_sorted : ∀ l : List JoinRow,
    List.Pairwise (fun a b => joinLeB a b = true) (sortJoin l) := by
  intro l
  induction l with
  | nil => simp [sortJoin]
  | cons x xs ih =>
      unfold sortJoin
      exact pairwise_orderedInsertJ x (sortJoin xs) ih

/-- When a listing id occurs exactly once in the listings table, the join rows
for that id are exactly its date-events, each paired with that listing. -/
theorem joinRowsRaw_filter (data : SourceData) (j : Int) (L : Listing)
    (hL : data.listings.filter (fun x => decide (x.id = j)) = [L]) :
    (joinRowsRaw data).filter (fun r => decide (r.listing.id = j)) =
      (data.dates.filter (fun e => decide (e.job_id = j))).map
        (fun e => ⟨L, e.scrapeDate, e.id⟩) := by
  have hLid : L.id = j := by
    have hmem : L ∈ data.listings.filter (fun x => decide (x.id = j)) := by
      rw [hL]; exact List.mem_singleton_self L
    exact of_decide_eq_true (List.mem_filter.mp hmem).2
  unfold joinRowsRaw
  generalize data.dates = evs
  induction evs with
  | nil => rfl
  | cons e evs ih =>
      rw [List.flatMap_cons, List.filter_append, ih, List.filter_cons]
      by_cases he : e.job_id = j
      · have hfilter : data.listings.filter (fun x => decide (x.id = e.job_id)) = [L] := by
          rw [he]; exact hL
        rw [hfilter]
        simp [he, hLid]
      · have hnone : ∀ r ∈ (data.listings.filter
            (fun x => decide (x.id = e.job_id))).map
              (fun L2 => (⟨L2, e.scrapeDate, e.id⟩ : JoinRow)),
            ¬ (decide (r.listing.id = j) = true) := by
          intro r hr
          rcases List.mem_map.mp hr with ⟨L2, hL2, rfl⟩
          have hid : L2.id = e.job_id := of_decide_eq_true (List.mem_filter.mp hL2).2
          simp [hid, he]
        rw [List.filter_eq_nil_iff.mpr hnone]
        simp [he]

/-- A filterMap that never drops keeps the length. -/
theorem length_filterMap_all {α β : Type} (f : α → Option β) :
    ∀ l : List α, (∀ x ∈ l, f x ≠ none) → (l.filterMap f).length = l.length := by
  intro l
  induction l with
  | nil => intro _; rfl
  | cons x xs ih =>
      intro h
      rw [List.filterMap_cons]
      cases hf : f x with
      | none => exact absurd hf (h x (List.mem_cons_self x xs))
      | some b => simp [ih (fun y hy => h y (List.mem_cons_of_mem x hy))]

/-- The migrate_all loop reaches every configured company, whatever happens
inside each iteration. -/
theorem migrateAll_attempted (raises : String → Bool) (dataOf : String → SourceData)
    (api : Payload → Option HttpResponse) (today : Date) :
    ∀ (entries : List (String × String)) (acc : Stats × List String),
      (entries.foldl (migrateAllStep raises dataOf api today) acc).2
        = acc.2 ++ entries.map (fun p => p.1) := by
  intro entries
  induction entries with
  | nil => intro acc; simp
  | cons e rest ih =>
      intro acc
      rw [List.foldl_cons, ih]
      unfold migrateAllStep
      by_cases hr : raises e.1 = true
      · simp [hr]
      · rw [if_neg hr]
        cases migrate_company api today e.1 (dataOf e.1) with
        | none => simp
        | some st => simp

/-- Equation lemma: an absent column contributes nothing. -/
theorem mapFieldsStep_absent {old_row : Row} {p : String × String} (x : Row)
    (h : rowGet old_row p.1 = none) : mapFieldsStep old_row x p = x := by
  unfold mapFieldsStep
  rw [h]

/-- Equation lemma: a null column contributes nothing. -/
theorem mapFieldsStep_vnull {old_row : Row} {p : String × String} (x : Row)
    (h : rowGet old_row p.1 = some Value.vnull) : mapFieldsStep old_row x p = x := by
  unfold mapFieldsStep
  rw [h]

/-- Equation lemma for a string-valued column: a date_added target parses the
string (dropping the binding when parsing fails); any other target stores the
string itself. -/
theorem mapFieldsStep_vstr {old_row : Row} {p : String × String} (x : Row) (s : String)
    (h : rowGet old_row p.1 = some (Value.vstr s)) :
    mapFieldsStep old_row x p =
      if p.2 = "date_added" then
        (match _parse_date s with
         | some d => dictInsert x p.2 (Value.vstr d.isoformat)
         | none => x)
      else dictInsert x p.2 (Value.vstr s) := by
  unfold mapFieldsStep
  rw [h]
  rfl

/-- Equation lemma for an integer-valued column: stored via str either way. -/
theorem mapFieldsStep_vint {old_row : Row} {p : String × String} (x : Row) (n : Int)
    (h : rowGet old_row p.1 = some (Value.vint n)) :
    mapFieldsStep old_row x p = dictInsert x p.2 (Value.vstr (toString n)) := by
  unfold mapFieldsStep
  rw [h]
  exact ite_self _

/-- Equation lemma for a datetime-valued column: a date_added target keeps the
date part in ISO form; any other target stores str(value). -/
theorem mapFieldsStep_vdt {old_row : Row} {p : String × String} (x : Row) (dt : PyDateTime)
    (h : rowGet old_row p.1 = some (Value.vdatetime dt)) :
    mapFieldsStep old_row x p =
      if p.2 = "date_added" then dictInsert x p.2 (Value.vstr dt.date.isoformat)
      else dictInsert x p.2 (Value.vstr (pyStr (Value.vdatetime dt))) := by
  unfold mapFieldsStep
  rw [h]
  rfl

/-- Every binding the field mapping emits comes from a configured, present,
non-null column, and its value is a string. -/
theorem mapFields_mem (fm : List (String × String)) (old_row : Row) :
    ∀ kv ∈ mapFields fm old_row,
      (∃ p ∈ fm, p.2 = kv.1 ∧ ∃ w, rowGet old_row p.1 = some w ∧ w ≠ Value.vnull) ∧
      ∃ s2, kv.2 = Value.vstr s2 := by
  unfold mapFields
  apply foldl_inv (fun m : Row => ∀ kv ∈ m,
    (∃ p ∈ fm, p.2 = kv.1 ∧ ∃ w, rowGet old_row p.1 = some w ∧ w ≠ Value.vnull) ∧
    ∃ s2, kv.2 = Value.vstr s2)
  · intro kv hkv
    exact absurd hkv (List.not_mem_nil kv)
  · intro x p hp hx kv hkv
    cases hrg : rowGet old_row p.1 with
    | none => rw [mapFieldsStep_absent x hrg] at hkv; exact hx kv hkv
    | some v =>
        have hnew : v ≠ Value.vnull → ∀ s2 : String, kv ∈ dictInsert x p.2 (Value.vstr s2) →
            (∃ q ∈ fm, q.2 = kv.1 ∧ ∃ w, rowGet old_row q.1 = some w ∧ w ≠ Value.vnull) ∧
            ∃ s3, kv.2 = Value.vstr s3 := by
          intro hvne s2 hmem
          rcases mem_dictInsert hmem with hold | hnewkv
          · exact hx kv hold
          · subst hnewkv
            exact ⟨⟨p, hp, rfl, v, hrg, hvne⟩, s2, rfl⟩
        cases v with
        | vnull => rw [mapFieldsStep_vnull x hrg] at hkv; exact hx kv hkv
        | vstr s =>
            rw [mapFieldsStep_vstr x s hrg] at hkv
            by_cases hda : p.2 = "date_added"
            · rw [if_pos hda] at hkv
              cases hpd : _parse_date s with
              | none => rw [hpd] at hkv; exact hx kv hkv
              | some d =>
                  rw [hpd] at hkv
                  exact hnew (fun hh => Value.noConfusion hh) _ hkv
            · rw [if_neg hda] at hkv
              exact hnew (fun hh => Value.noConfusion hh) _ hkv
        | vint n =>
            rw [mapFieldsStep_vint x n hrg] at hkv
            exact hnew (fun hh => Value.noConfusion hh) _ hkv
        | vdatetime dt =>
            rw [mapFieldsStep_vdt x dt hrg] at hkv
            by_cases hda : p.2 = "date_added"
            · rw [if_pos hda] at hkv
              exact hnew (fun hh => Value.noConfusion hh) _ hkv
            · rw [if_neg hda] at hkv
              exact hnew (fun hh => Value.noConfusion hh) _ hkv

/-!  The claim theorems. -/

/-- Claim C1: a fetched join row whose ScrapeDate fails to parse is skipped
entirely: nothing is submitted for it, no counter moves, the listing is not
added to the unique-job set, and the fallback to date_added or today (dead
code after the continue on line 307) is never executed — the step does not
depend on today at all. -/
theorem C1_unparseable_scrapedate_skips_row
    (cp cn : String) (api : Payload → Option HttpResponse) (today : Date)
    (s : MigState) (r : JoinRow)
    (h : ∀ str, r.scrapeDate = some str → _parse_date str = none) :
    stepJoin cp cn api today s r = s ∧
    joinSubmission cp cn r = none ∧
    ∀ today2, stepJoin cp cn api today2 s r = stepJoin cp cn api today s r := by
  have hsd : scrapeDateOf r = none := by
    unfold scrapeDateOf
    cases hr : r.scrapeDate with
    | none => rfl
    | some str =>
        show (if str = "" then none else _parse_date str) = none
        by_cases he : str = ""
        · rw [if_pos he]
        · rw [if_neg he]; exact h str hr
  refine ⟨stepJoin_none hsd, ?_, ?_⟩
  · unfold joinSubmission; rw [hsd]
  · intro today2; rw [stepJoin_none hsd, stepJoin_none hsd]

/-- Witness for C1 at a concrete row. -/
theorem C1_witness :
    stepJoin "kls" "KLS" exApiOk exToday initState exBadRow = initState :=
  (C1_unparseable_scrapedate_skips_row "kls" "KLS" exApiOk exToday initState exBadRow
    (fun str hstr => by
      injection hstr with h2
      subst h2
      decide)).1

/-- Claim C2: _parse_date tries exactly the six literal patterns YYYY-MM-DD,
YYYY/MM/DD, DD.MM.YYYY, DD/MM/YYYY, YYYY-MM-DD HH:MM:SS, YYYY/MM/DD HH:MM:SS
in that order on the whitespace-stripped input and returns the calendar date
of the first that parses; for blank input and for input no pattern accepts it
returns None instead of raising.  The closing conjuncts evaluate the parser on
one representative of each format and on inputs that must yield None. -/
theorem C2_parse_date_first_of_six_formats :
    formats = [fmtYmdDash, fmtYmdSlash, fmtDmyDot, fmtDmySlash,
      fmtYmdDashTime, fmtYmdSlashTime] ∧
    (∀ s, pyStrip s = "" → _parse_date s = none) ∧
    (∀ s, (∀ f ∈ formats, strptimeDate f (pyStrip s) = none) → _parse_date s = none) ∧
    (∀ (s : String) (d : Date) (i : Nat) (hi : i < formats.length),
      strptimeDate (formats.get ⟨i, hi⟩) (pyStrip s) = some d →
      (∀ j (hj : j < i), strptimeDate (formats.get ⟨j, Nat.lt_trans hj hi⟩) (pyStrip s) = none) →
      _parse_date s = some d) ∧
    _parse_date "2023-01-15" = some ⟨2023, 1, 15⟩ ∧
    _parse_date "2023/01/15" = some ⟨2023, 1, 15⟩ ∧
    _parse_date "15.01.2023" = some ⟨2023, 1, 15⟩ ∧
    _parse_date "15/01/2023" = some ⟨2023, 1, 15⟩ ∧
    _parse_date "2023-01-15 10:30:00" = some ⟨2023, 1, 15⟩ ∧
    _parse_date "2023/01/15 10:30:00" = some ⟨2023, 1, 15⟩ ∧
    _parse_date "" = none ∧
    _parse_date "   " = none ∧
    _parse_date "January 5, 2023" = none := by
  refine ⟨rfl, ?_, ?_, ?_, by decide, by decide, by decide, by decide, by decide, by decide,
    by decide, by decide, by decide⟩
  · intro s hs
    unfold _parse_date
    rw [if_pos (Or.inr hs)]
  · intro s h
    unfold _parse_date
    by_cases hb : s = "" ∨ pyStrip s = ""
    · rw [if_pos hb]
    · rw [if_neg hb]
      exact tryFormatsAux_all_none (pyStrip s) formats h
  · intro s d i hi hsome hprev
    unfold _parse_date
    have hb : ¬ (s = "" ∨ pyStrip s = "") := by
      intro hb
      have hps : pyStrip s = "" := by
        rcases hb with hb | hb
        · rw [hb]; rfl
        · exact hb
      have hnone : ∀ f ∈ formats, strptimeDate f "" = none := by decide
      have hg := hnone (formats.get ⟨i, hi⟩) (List.get_mem formats i hi)
      rw [hps, hg] at hsome
      exact Option.noConfusion hsome
    rw [if_neg hb]
    exact tryFormatsAux_first (pyStrip s) d formats i hi hsome hprev

/-- Witness for C2: the third pattern is the first to match this input. -/
theorem C2_witness : _parse_date "15.01.2023" = some ⟨2023, 1, 15⟩ :=
  C2_parse_date_first_of_six_formats.2.2.2.1 "15.01.2023" ⟨2023, 1, 15⟩ 2
    (by decide) (by decide)
    (fun j hj =>
      match j, hj with
      | 0, _ => (by decide : strptimeDate fmtYmdDash (pyStrip "15.01.2023") = none)
      | 1, _ => (by decide : strptimeDate fmtYmdSlash (pyStrip "15.01.2023") = none))

/-- Claim C5 counterexample: the claim says every non-2xx response yields
failure, but raise_for_status only raises for 4xx/5xx, so a final 303
response with a JSON body makes insert_job_via_api return success. -/
theorem C5_counterexample :
    ¬ (200 ≤ 303 ∧ 303 < 300) ∧
    exApi303 (buildPayload "KLS" [] ⟨2023, 1, 15⟩) = some ⟨303, true⟩ ∧
    insert_job_via_api exApi303 "KLS" [] ⟨2023, 1, 15⟩ = true := by
  decide

/-- Claim C5 (amended): a 4xx/5xx response, or a request that raises before
any response, makes insert_job_via_api return False without raising; the
join-loop caller then adds one to the error counter, leaves dates-migrated
unchanged, and the fold continues with the remaining rows. -/
theorem C5_submit_failure_counted (cn : String) (api : Payload → Option HttpResponse)
    (jd : Row) (sd : Date) :
    (∀ resp, api (buildPayload cn jd sd) = some resp → 400 ≤ resp.status →
      resp.status < 600 → insert_job_via_api api cn jd sd = false) ∧
    (api (buildPayload cn jd sd) = none → insert_job_via_api api cn jd sd = false) ∧
    (∀ (cp : String) (today : Date) (s : MigState) (r : JoinRow) (d : Date),
      scrapeDateOf r = some d →
      insert_job_via_api api cn (map_job_fields cp (joinDict r)) d = false →
      (stepJoin cp cn api today s r).errors = s.errors + 1 ∧
      (stepJoin cp cn api today s r).dates_migrated = s.dates_migrated) ∧
    (∀ (cp : String) (today : Date) (s : MigState) (r : JoinRow) (rest : List JoinRow),
      (r :: rest).foldl (stepJoin cp cn api today) s
        = rest.foldl (stepJoin cp cn api today) (stepJoin cp cn api today s r)) := by
  refine ⟨?_, ?_, ?_, ?_⟩
  · intro resp h h4 h6
    unfold insert_job_via_api
    rw [h, responseOk_some, if_pos ⟨h4, h6⟩]
  · intro h
    unfold insert_job_via_api
    rw [h, responseOk_none]
  · intro cp today s r d hd hfail
    rw [stepJoin_some hd]
    constructor
    · show s.errors + (if insert_job_via_api api cn (map_job_fields cp (joinDict r)) d
        then 0 else 1) = s.errors + 1
      rw [hfail]
      rfl
    · show s.dates_migrated + (if insert_job_via_api api cn (map_job_fields cp (joinDict r)) d
        then 1 else 0) = s.dates_migrated
      rw [hfail]
      rfl
  · intro cp today s r rest
    rw [List.foldl_cons]

/-- Witness for C5 at a concrete 500 response. -/
theorem C5_witness : insert_job_via_api exApi500 "KLS" [] ⟨2023, 1, 15⟩ = false :=
  (C5_submit_failure_counted "KLS" exApi500 [] ⟨2023, 1, 15⟩).1 ⟨500, true⟩ rfl
    (by decide) (by decide)

/-- Claim C6: every binding map_job_fields emits stems from a configured
source column that is present in the row with a non-null value, and every
emitted value is a string — absent or null columns yield nothing, not even a
placeholder. -/
theorem C6_mapping_only_present_nonnull_strings (cp : String) (old_row : Row) :
    ∀ kv ∈ map_job_fields cp old_row,
      (∃ p ∈ (tblGet FIELD_MAPPINGS cp).getD [], p.2 = kv.1 ∧
        ∃ w, rowGet old_row p.1 = some w ∧ w ≠ Value.vnull) ∧
      ∃ s2, kv.2 = Value.vstr s2 := by
  unfold map_job_fields
  exact mapFields_mem _ old_row

/-- Witness for C6 at a concrete row and emitted binding. -/
theorem C6_witness :
    (∃ p ∈ (tblGet FIELD_MAPPINGS "kls").getD [], p.2 = "title" ∧
      ∃ w, rowGet [("Title", Value.vstr "Engineer")] p.1 = some w ∧ w ≠ Value.vnull) ∧
    ∃ s2, Value.vstr "Engineer" = Value.vstr s2 :=
  C6_mapping_only_present_nonnull_strings "kls" [("Title", Value.vstr "Engineer")]
    ("title", Value.vstr "Engineer") (by decide)

/-- Claim C7: the process exits zero exactly when the initial connection
succeeds (a failed connection exits 1 before any connection exists); on a
successful connection the connection is closed by the finally block and every
configured company is attempted, whatever exceptions single companies raise. -/
theorem C7_per_source_isolation (connectOk : Bool) (raises : String → Bool)
    (dataOf : String → SourceData) (api : Payload → Option HttpResponse) (today : Date) :
    ((migrate_all connectOk raises dataOf api today).exitCode = 0 ↔ connectOk = true) ∧
    (connectOk = true →
      (migrate_all connectOk raises dataOf api today).connectionClosed = true ∧
      (migrate_all connectOk raises dataOf api today).attempted
        = COMPANY_MAPPING.map (fun p => p.1)) := by
  cases connectOk with
  | false =>
      refine ⟨⟨fun h => ?_, fun h => Bool.noConfusion h⟩, fun h => Bool.noConfusion h⟩
      have h1 : (migrate_all false raises dataOf api today).exitCode = 1 := rfl
      omega
  | true =>
      refine ⟨⟨fun _ => rfl, fun _ => rfl⟩, fun _ => ⟨rfl, ?_⟩⟩
      show (COMPANY_MAPPING.foldl (migrateAllStep raises dataOf api today)
        (initialStats, [])).2 = COMPANY_MAPPING.map (fun p => p.1)
      rw [migrateAll_attempted raises dataOf api today COMPANY_MAPPING (initialStats, [])]
      rfl

/-- Witness for C7: even when every company raises, both companies are
attempted, the connection is closed and the exit status is zero. -/
theorem C7_witness :
    (migrate_all true exRaisesAll exDataOf exApiOk exToday).connectionClosed = true ∧
    (migrate_all true exRaisesAll exDataOf exApiOk exToday).attempted = ["kls", "ks"] := by
  have h := (C7_per_source_isolation true exRaisesAll exDataOf exApiOk exToday).2 rfl
  exact ⟨h.1, by rw [h.2]; decide⟩

/-- Claim C10: a 2xx response whose body is not valid JSON still makes
insert_job_via_api return False, because response.json() raises a
JSONDecodeError that the RequestException handler catches. -/
theorem C10_2xx_invalid_json_is_failure (api : Payload → Option HttpResponse)
    (cn : String) (jd : Row) (sd : Date) (resp : HttpResponse)
    (h1 : api (buildPayload cn jd sd) = some resp)
    (h2 : 200 ≤ resp.status) (h3 : resp.status < 300) (h4 : resp.jsonOk = false) :
    insert_job_via_api api cn jd sd = false := by
  unfold insert_job_via_api
  rw [h1, responseOk_some, if_neg (by omega : ¬ (400 ≤ resp.status ∧ resp.status < 600))]
  exact h4

/-- Witness for C10 at a concrete 200 response with a bad body. -/
theorem C10_witness : insert_job_via_api exApi200Bad "KLS" [] ⟨2023, 1, 15⟩ = false :=
  C10_2xx_invalid_json_is_failure exApi200Bad "KLS" [] ⟨2023, 1, 15⟩ ⟨200, false⟩ rfl
    (by decide) (by decide) rfl

/-- Claim C3 counterexample: listing 7 has one date-event, but because that
event's ScrapeDate does not parse the run submits zero records for it and the
unique-listings counter stays at zero — not one record and a count of one as
the claim states. -/
theorem C3_counterexample :
    (exDataBadDate.dates.filter (fun e => decide (e.job_id = 7))).length = 1 ∧
    migrate_company exApiOk exToday "kls" exDataBadDate = some exStBad ∧
    exStBad.submissions.length = 0 ∧
    exStBad.jobs_migrated = 0 := by
  decide

/-- Claim C3 (amended): for a listing with N date-events all of whose
ScrapeDate values parse, migration submits exactly N records for it — one per
date-event, all sharing the mapped content of the listing row and each
carrying its own event date — and the listing enters the unique-job set
exactly once; the unique-listings counter equals the size of that set plus
the dateless listings. -/
theorem C3_n_events_n_records
    (cp cn : String) (api : Payload → Option HttpResponse) (today : Date)
    (data : SourceData) (st : MigState) (j : Int) (L : Listing) (N : Nat)
    (hcn : tblGet COMPANY_MAPPING cp = some cn)
    (hst : migrate_company api today cp data = some st)
    (hL : data.listings.filter (fun x => decide (x.id = j)) = [L])
    (hN : (data.dates.filter (fun e => decide (e.job_id = j))).length = N)
    (hN1 : 1 ≤ N)
    (hparse : ∀ r ∈ fetchJoinRows data, r.listing.id = j → scrapeDateOf r ≠ none)
    (hdisj : ∀ p ∈ (tblGet FIELD_MAPPINGS cp).getD [],
      p.1 ≠ "ScrapeDate" ∧ p.1 ≠ "date_entry_id") :
    (((fetchJoinRows data).filter (fun r => decide (r.listing.id = j))).filterMap
        (joinSubmission cp cn)).length = N ∧
    (∀ r ∈ fetchJoinRows data, r.listing.id = j →
      ∃ d, scrapeDateOf r = some d ∧
        joinSubmission cp cn r = some (buildPayload cn (map_job_fields cp (listingDict L)) d)) ∧
    st.submissions = (fetchJoinRows data).filterMap (joinSubmission cp cn)
      ++ (fetchNoDates data).map (noDateSubmission cp cn today) ∧
    st.processed_jobs.count j = 1 ∧
    st.jobs_migrated = st.processed_jobs.length + (fetchNoDates data).length := by
  have hx := migrate_company_eq api today cp cn data hcn
  rw [hst] at hx
  have hst2 := Option.some.inj hx
  have hfilterPerm : List.Perm
      ((fetchJoinRows data).filter (fun r => decide (r.listing.id = j)))
      ((data.dates.filter (fun e => decide (e.job_id = j))).map
        (fun e => ⟨L, e.scrapeDate, e.id⟩)) := by
    have hp := (sortJoin_perm (joinRowsRaw data)).filter
      (fun r => decide (r.listing.id = j))
    rw [joinRowsRaw_filter data j L hL] at hp
    exact hp
  have hlenfilter :
      ((fetchJoinRows data).filter (fun r => decide (r.listing.id = j))).length = N := by
    rw [hfilterPerm.length_eq, List.length_map, hN]
  refine ⟨?_, ?_, ?_, ?_, ?_⟩
  · rw [length_filterMap_all _ _ ?hall, hlenfilter]
    case hall =>
      intro r hr
      have hrmem := (List.mem_filter.mp hr).1
      have hrid : r.listing.id = j := of_decide_eq_true (List.mem_filter.mp hr).2
      have hne := hparse r hrmem hrid
      unfold joinSubmission
      cases hsd : scrapeDateOf r with
      | none => exact absurd hsd hne
      | some d => exact Option.some_ne_none _
  · intro r hr hid
    have hL2 : r.listing = L := by
      have hraw : r ∈ joinRowsRaw data := (sortJoin_perm (joinRowsRaw data)).mem_iff.mp hr
      unfold joinRowsRaw at hraw
      rcases List.mem_flatMap.mp hraw with ⟨e, he, hre⟩
      rcases List.mem_map.mp hre with ⟨L2, hL2f, rfl⟩
      have hmem2 : L2 ∈ data.listings.filter (fun x => decide (x.id = j)) :=
        List.mem_filter.mpr ⟨(List.mem_filter.mp hL2f).1, decide_eq_true hid⟩
      rw [hL] at hmem2
      exact List.mem_singleton.mp hmem2
    cases hsd : scrapeDateOf r with
    | none => exact absurd hsd (hparse r hr hid)
    | some d =>
        refine ⟨d, rfl, ?_⟩
        unfold joinSubmission
        rw [hsd]
        have hmaps : map_job_fields cp (joinDict r) = map_job_fields cp (listingDict L) := by
          unfold map_job_fields
          apply mapFields_congr
          intro p hp
          rcases hdisj p hp with ⟨hp1, hp2⟩
          unfold joinDict
          rw [rowGet_dictInsert_ne _ _ _ _ hp2, rowGet_dictInsert_ne _ _ _ _ hp1, hL2]
        rw [hmaps]
  · exact migrate_company_submissions api today cp cn data st hcn hst
  · have hproc : st.processed_jobs =
        ((fetchJoinRows data).foldl (stepJoin cp cn api today) initState).processed_jobs := by
      rw [hst2]
      exact foldNoDate_processed cp cn api today (fetchNoDates data) _
    have hnodup := foldJoin_processed_nodup cp cn api today (fetchJoinRows data) initState
      (by simp [initState])
    have hmem : j ∈ ((fetchJoinRows data).foldl (stepJoin cp cn api today)
        initState).processed_jobs := by
      rw [foldJoin_processed_mem]
      right
      have hne : ((fetchJoinRows data).filter (fun r => decide (r.listing.id = j))) ≠ [] := by
        intro h0
        rw [h0] at hlenfilter
        simp at hlenfilter
        omega
      rcases List.exists_mem_of_ne_nil _ hne with ⟨r, hr⟩
      have hrmem := (List.mem_filter.mp hr).1
      have hrid : r.listing.id = j := of_decide_eq_true (List.mem_filter.mp hr).2
      exact ⟨r, hrmem, hrid, hparse r hrmem hrid⟩
    rw [hproc]
    exact List.count_eq_one_of_mem hnodup hmem
  · have hjobs1 := foldJoin_jobs_len cp cn api today (fetchJoinRows data) initState
      (by simp [initState])
    have hjobs2 := foldNoDate_jobs cp cn api today (fetchNoDates data)
      ((fetchJoinRows data).foldl (stepJoin cp cn api today) initState)
    have hproc2 := foldNoDate_processed cp cn api today (fetchNoDates data)
      ((fetchJoinRows data).foldl (stepJoin cp cn api today) initState)
    rw [hst2, hjobs2, hjobs1, hproc2]

/-- Witness for C3 at a concrete two-event listing. -/
theorem C3_witness :
    exSt.processed_jobs.count 1 = 1 ∧
    (((fetchJoinRows exData).filter (fun r => decide (r.listing.id = 1))).filterMap
      (joinSubmission "kls" "KLS")).length = 2 := by
  have hfetch : fetchJoinRows exData =
      [⟨exL1, some "2023-01-10", 11⟩, ⟨exL1, some "2023-01-15", 12⟩] := by decide
  have h := C3_n_events_n_records "kls" "KLS" exApiOk exToday exData exSt 1 exL1 2
    (by decide) rfl (by decide) (by decide) (by decide)
    (by
      rw [hfetch]
      intro r hr hid
      rcases List.mem_cons.mp hr with rfl | hr2
      · decide
      · rcases List.mem_cons.mp hr2 with rfl | hr3
        · decide
        · exact absurd hr3 (List.not_mem_nil r))
    (by decide)
  exact ⟨h.2.2.2.1, h.1⟩

/-- Claim C4: a listing with no date-events yields exactly one submitted
record, whose event date is the mapped date_added value when present and
parseable as an ISO date, and today's date otherwise; it never appears among
the join rows, and the dateless query returns it exactly once. -/
theorem C4_dateless_listing_one_record
    (cp cn : String) (api : Payload → Option HttpResponse) (today : Date)
    (data : SourceData) (st : MigState) (L : Listing)
    (hcn : tblGet COMPANY_MAPPING cp = some cn)
    (hst : migrate_company api today cp data = some st)
    (hL : data.listings.filter (fun x => decide (x.id = L.id)) = [L])
    (hnoev : ∀ e ∈ data.dates, e.job_id ≠ L.id) :
    st.submissions = (fetchJoinRows data).filterMap (joinSubmission cp cn)
      ++ (fetchNoDates data).map (noDateSubmission cp cn today) ∧
    (∀ r ∈ fetchJoinRows data, r.listing.id ≠ L.id) ∧
    ((fetchNoDates data).filter (fun x => decide (x.id = L.id))).map
      (noDateSubmission cp cn today) = [noDateSubmission cp cn today L] ∧
    (noDateSubmission cp cn today L).scrape_date
      = (noDateScrapeDate (map_job_fields cp (listingDict L)) today).isoformat ∧
    (∀ v d2, rowGet (map_job_fields cp (listingDict L)) "date_added" = some (Value.vstr v) →
      ¬ v = "" → fromisoformat v = some d2 →
      noDateScrapeDate (map_job_fields cp (listingDict L)) today = d2) ∧
    (∀ v, rowGet (map_job_fields cp (listingDict L)) "date_added" = some (Value.vstr v) →
      ¬ v = "" → fromisoformat v = none →
      noDateScrapeDate (map_job_fields cp (listingDict L)) today = today) ∧
    (rowGet (map_job_fields cp (listingDict L)) "date_added" = none →
      noDateScrapeDate (map_job_fields cp (listingDict L)) today = today) := by
  refine ⟨migrate_company_submissions api today cp cn data st hcn hst, ?_, ?_, rfl, ?_, ?_, ?_⟩
  · intro r hr
    have hraw : r ∈ joinRowsRaw data := (sortJoin_perm (joinRowsRaw data)).mem_iff.mp hr
    unfold joinRowsRaw at hraw
    rcases List.mem_flatMap.mp hraw with ⟨e, he, hre⟩
    rcases List.mem_map.mp hre with ⟨L2, hL2f, rfl⟩
    have hid : L2.id = e.job_id := of_decide_eq_true (List.mem_filter.mp hL2f).2
    rw [hid]
    exact hnoev e he
  · have hq : (fun L2 : Listing =>
        !(data.dates.any (fun e => decide (e.job_id = L2.id)))) L = true := by
      have : (data.dates.any (fun e => decide (e.job_id = L.id))) = false := by
        rw [List.any_eq_false]
        intro e he
        simp [hnoev e he]
      simp [this]
    unfold fetchNoDates
    rw [List.filter_comm, hL, List.filter_cons, if_pos hq]
    rfl
  · intro v d2 hget hv hfi
    unfold noDateScrapeDate
    rw [hget]
    show (if v = "" then today else (fromisoformat v).getD today) = d2
    rw [if_neg hv, hfi]
    rfl
  · intro v hget hv hfi
    unfold noDateScrapeDate
    rw [hget]
    show (if v = "" then today else (fromisoformat v).getD today) = today
    rw [if_neg hv, hfi]
    rfl
  · intro hget
    unfold noDateScrapeDate
    rw [hget]

/-- Witness for C4 at a concrete dateless listing. -/
theorem C4_witness :
    ((fetchNoDates exData).filter (fun x => decide (x.id = exL2.id))).map
      (noDateSubmission "kls" "KLS" exToday) = [noDateSubmission "kls" "KLS" exToday exL2] :=
  (C4_dateless_listing_one_record "kls" "KLS" exApiOk exToday exData exSt exL2
    (by decide) rfl (by decide) (by decide)).2.2.1

/-- Claim C8: the fetched join rows are sorted by listing id then ScrapeDate,
the submissions of a run are exactly those rows' records in fetched order
followed by the dateless records in fetched order, and a rerun on equal data
and equal API responses yields the identical result. -/
theorem C8_stable_submission_order
    (cp cn : String) (api : Payload → Option HttpResponse) (today : Date)
    (data : SourceData) (st : MigState)
    (hcn : tblGet COMPANY_MAPPING cp = some cn)
    (hst : migrate_company api today cp data = some st) :
    List.Pairwise (fun a b => joinLeB a b = true) (fetchJoinRows data) ∧
    st.submissions = (fetchJoinRows data).filterMap (joinSubmission cp cn)
      ++ (fetchNoDates data).map (noDateSubmission cp cn today) ∧
    (∀ (data2 : SourceData) (api2 : Payload → Option HttpResponse),
      data2 = data → api2 = api →
      migrate_company api2 today cp data2 = migrate_company api today cp data) := by
  refine ⟨sortJoin_sorted (joinRowsRaw data),
    migrate_company_submissions api today cp cn data st hcn hst, ?_⟩
  intro data2 api2 h1 h2
  rw [h1, h2]

/-- Witness for C8 at a concrete run. -/
theorem C8_witness :
    exSt.submissions = (fetchJoinRows exData).filterMap (joinSubmission "kls" "KLS")
      ++ (fetchNoDates exData).map (noDateSubmission "kls" "KLS" exToday) :=
  (C8_stable_submission_order "kls" "KLS" exApiOk exToday exData exSt
    (by decide) rfl).2.1

/-- Claim C9: the active company mapping produces only the names KLS and
KarlStorz, neither of which is in the hidden set (which contains the
different spelling KarlsStorz), so every record any migration run submits
carries hidden = false. -/
theorem C9_no_submission_hidden :
    COMPANY_MAPPING.map (fun p => p.2) = ["KLS", "KarlStorz"] ∧
    (∀ cn ∈ COMPANY_MAPPING.map (fun p => p.2), HIDDEN_COMPANIES.contains cn = false) ∧
    ∀ (cp : String) (data : SourceData) (api : Payload → Option HttpResponse)
      (today : Date) (st : MigState),
      migrate_company api today cp data = some st →
      ∀ p ∈ st.submissions, p.hidden = false := by
  refine ⟨rfl, by decide, ?_⟩
  intro cp data api today st hst p hp
  cases hcn : tblGet COMPANY_MAPPING cp with
  | none =>
      unfold migrate_company at hst
      rw [hcn] at hst
      exact Option.noConfusion hst
  | some cn =>
      have hcontains : HIDDEN_COMPANIES.contains cn = false := by
        have hcn2 := hcn
        unfold COMPANY_MAPPING tblGet at hcn2
        by_cases h1 : "kls" = cp
        · rw [if_pos h1] at hcn2
          injection hcn2 with h3
          rw [← h3]
          decide
        · rw [if_neg h1] at hcn2
          unfold tblGet at hcn2
          by_cases h2 : "ks" = cp
          · rw [if_pos h2] at hcn2
            injection hcn2 with h3
            rw [← h3]
            decide
          · rw [if_neg h2] at hcn2
            unfold tblGet at hcn2
            exact Option.noConfusion hcn2
      rw [migrate_company_submissions api today cp cn data st hcn hst] at hp
      rcases List.mem_append.mp hp with hp1 | hp2
      · rcases List.mem_filterMap.mp hp1 with ⟨r, _, hjs⟩
        unfold joinSubmission at hjs
        cases hsd : scrapeDateOf r with
        | none => rw [hsd] at hjs; exact Option.noConfusion hjs
        | some d =>
            rw [hsd] at hjs
            injection hjs with h4
            rw [← h4]
            exact hcontains
      · rcases List.mem_map.mp hp2 with ⟨L, _, hns⟩
        rw [← hns]
        exact hcontains

/-- Witness for C9 at a concrete submitted record. -/
theorem C9_witness : (noDateSubmission "kls" "KLS" exToday exL2).hidden = false := by
  have hs : exSt.submissions =
      [buildPayload "KLS" (map_job_fields "kls" (joinDict ⟨exL1, some "2023-01-10", 11⟩))
          ⟨2023, 1, 10⟩,
        buildPayload "KLS" (map_job_fields "kls" (joinDict ⟨exL1, some "2023-01-15", 12⟩))
          ⟨2023, 1, 15⟩,
        noDateSubmission "kls" "KLS" exToday exL2] := by decide
  exact C9_no_submission_hidden.2.2 "kls" exData exApiOk exToday exSt rfl
    (noDateSubmission "kls" "KLS" exToday exL2)
    (by
      rw [hs]
      exact List.mem_cons_of_mem _ (List.mem_cons_of_mem _ (List.mem_cons_self _ _)))

end Migrate
